import Mathlib

/-!
Shallow embedding of `updatetokenxml.py`, a tool that synchronizes a local
XML catalog of trading-card token entries with upstream records, and proofs
about its matching, synthesis and orchestration logic.

Python strings are modelled as `List Char` (`PyStr`); lxml element trees as
the inductive `Elem` (tag, attributes, optional text, children); Python
exceptions (KeyError, AttributeError, IndexError where uncaught) as `none`
in the `Option` monad.
-/

namespace UTX

/-- Python strings, modelled as their character lists so that every
operation reduces in the kernel. -/
abbrev PyStr := List Char

/-- Uppercase one ASCII character, as Python `str.upper` does on the
ASCII range (set codes are ASCII). -/
def upChar (c : Char) : Char :=
  if 'a' ≤ c ∧ c ≤ 'z' then Char.ofNat (c.toNat - 32) else c

/-- Python `s.upper()` restricted to the ASCII range. -/
def pyUpper (s : PyStr) : PyStr := s.map upChar

/-- Python `needle in hay` substring test. -/
def pyContains (hay needle : PyStr) : Bool := hay.tails.any (needle.isPrefixOf ·)

/-- Insert an element into a sorted list, ascending. -/
def insertSorted (c : Char) : List Char → List Char
  | [] => [c]
  | d :: rest => if c ≤ d then c :: d :: rest else d :: insertSorted c rest

/-- Python `sorted` on a list of one-character colour codes (insertion
sort, ascending by code point — the order Python uses on such strings). -/
def pySorted (l : List Char) : List Char := l.foldr insertSorted []

/-- Fuelled worker for Python `str.split(sep)` with a non-empty separator:
scan left to right, cutting at each non-overlapping occurrence. The fuel
only needs to be at least the input length. -/
def splitOnFuel (sep : PyStr) : Nat → PyStr → PyStr → List PyStr
  | 0, l, acc => [acc.reverse ++ l]
  | _ + 1, [], acc => [acc.reverse]
  | fuel + 1, c :: rest, acc =>
    if sep.isPrefixOf (c :: rest) then
      acc.reverse :: splitOnFuel sep fuel ((c :: rest).drop sep.length) []
    else
      splitOnFuel sep fuel rest (c :: acc)

/-- Python `l.split(sep)` for a non-empty separator `sep`. -/
def pySplit (sep l : PyStr) : List PyStr := splitOnFuel sep l.length l []

/-- Python list / lxml `insert(idx, x)` for a non-negative index: indices
beyond the current length append at the end. -/
def insertAt {α : Type} : Nat → α → List α → List α
  | 0, a, l => a :: l
  | _ + 1, a, [] => [a]
  | n + 1, a, x :: l => x :: insertAt n a l

/-- An lxml XML element: tag, attribute list, optional text, children.
`text = none` models lxml's `elem.text is None` (empty element). -/
inductive Elem : Type where
  | mk (tag : PyStr) (attrs : List (PyStr × PyStr)) (text : Option PyStr)
      (children : List Elem)

/-- Tag of an element. -/
def Elem.tag : Elem → PyStr
  | .mk t _ _ _ => t

/-- Attribute list of an element. -/
def Elem.attrs : Elem → List (PyStr × PyStr)
  | .mk _ a _ _ => a

/-- Text of an element (`none` when lxml would report `None`). -/
def Elem.text : Elem → Option PyStr
  | .mk _ _ t _ => t

/-- Children of an element, in document order. -/
def Elem.children : Elem → List Elem
  | .mk _ _ _ c => c

/-- All children of `e` carrying tag `t`, in document order. -/
def childrenWithTag (e : Elem) (t : PyStr) : List Elem :=
  e.children.filter (fun c => c.tag == t)

/-- lxml `e.find(t)` for a plain child tag: first child with that tag. -/
def findChild (e : Elem) (t : PyStr) : Option Elem :=
  (childrenWithTag e t).head?

/-- lxml `e.find('./t1/t2')`: first grandchild, in document order, reached
through a `t1`-tagged child and carrying tag `t2`. -/
def findPath2 (e : Elem) (t1 t2 : PyStr) : Option Elem :=
  ((childrenWithTag e t1).map (fun c => childrenWithTag c t2)).flatten.head?

/-- lxml `e.findtext(t)`: text of the first matching child with `None`
mapped to the empty string, or `none` when no such child exists. -/
def findtext (e : Elem) (t : PyStr) : Option PyStr :=
  (findChild e t).map (fun c => c.text.getD [])

/-- A raw Scryfall record (or one face of a double-faced record), keeping
exactly the dictionary keys `fetchTokenInfo` reads. `none` in an optional
field models an absent key (a plain subscript on it raises KeyError).
`image_uris_large` collapses the nested `image_uris`/`large` lookup. -/
structure SfEntry : Type where
  name : PyStr
  oracle_text : Option PyStr
  type_line : PyStr
  colors : List Char
  power : Option PyStr
  toughness : Option PyStr
  image_uris_large : Option PyStr
deriving DecidableEq

/-- The normalized record built by `fetchTokenInfo` (the `match_info`
dictionary). Colour codes are single characters, kept as `List Char`. -/
structure TokenInfo : Type where
  token_name : PyStr
  token_text : PyStr
  token_type : PyStr
  token_colors : List Char
  token_pt : PyStr
  token_image : PyStr
deriving DecidableEq

/-- Embedding of `fetchTokenInfo` (the Record Normalizer): plain subscripts
`sf_entry['oracle_text']` and `sf_entry['image_uris']['large']` raise
KeyError on absent keys (`none`); power/toughness are guarded by an
explicit `in .keys()` test and default to the empty string. -/
def fetchTokenInfo (sf_entry : SfEntry) : Option TokenInfo := do
  let text ← sf_entry.oracle_text
  let image ← sf_entry.image_uris_large
  return { token_name := sf_entry.name
           token_text := text
           token_type := sf_entry.type_line
           token_colors := pySorted sf_entry.colors
           token_pt :=
             match sf_entry.power, sf_entry.toughness with
             | some p, some t => p ++ ['/'] ++ t
             | _, _ => []
           token_image := image }

/-- The `xml_text` normalization in `xmlMatch`: text of the `text` child
when that child exists (lxml `findtext`, `None` read as empty), else the
empty string. -/
def xmlTextOf (card : Elem) : PyStr :=
  match findChild card "text".toList with
  | some c => c.text.getD []
  | none => []

/-- The `xml_colors` normalization in `xmlMatch`: sorted character list of
the `prop/colors` text when that element exists, else the empty list. -/
def xmlColorsOf (card : Elem) : List Char :=
  match findPath2 card "prop".toList "colors".toList with
  | some c => pySorted (c.text.getD [])
  | none => []

/-- The `xml_pt` normalization in `xmlMatch`: text of `prop/pt` when that
element exists, else the empty string. -/
def xmlPtOf (card : Elem) : PyStr :=
  match findPath2 card "prop".toList "pt".toList with
  | some c => c.text.getD []
  | none => []

/-- The per-entry match test of `xmlMatch`, in Python's evaluation order
with short-circuiting `and`. `none` models an uncaught exception:
`xml_name.startswith(...)` on a missing `name` child (AttributeError on
`None`), and `.text` on a missing `prop/type` element. -/
def cardMatch (card : Elem) (ti : TokenInfo) : Option Bool := do
  let xml_name ← findtext card "name".toList
  if ¬ ti.token_name.isPrefixOf xml_name then return false
  if ¬ (xmlTextOf card == ti.token_text) then return false
  let type_elem ← findPath2 card "prop".toList "type".toList
  if ¬ (type_elem.text == some ti.token_type) then return false
  if ¬ (xmlColorsOf card == ti.token_colors) then return false
  if ¬ (xmlPtOf card == ti.token_pt) then return false
  return true

/-- The new provenance line built on a match: a `set` element with the
record's image as `picURL` attribute and the uppercased set code as text. -/
def setLine (ti : TokenInfo) (set_code : PyStr) : Elem :=
  .mk "set".toList [("picURL".toList, ti.token_image)] (some (pyUpper set_code)) []

/-- Insertion of the new set line into a matched entry: child index 3 when
a `text` child exists, else child index 2 (lxml `insert`). -/
def insertSetLine (card : Elem) (ti : TokenInfo) (set_code : PyStr) : Elem :=
  .mk card.tag card.attrs card.text
    (insertAt (if (findChild card "text".toList).isSome then 3 else 2)
      (setLine ti set_code) card.children)

/-- Embedding of `xmlMatch` (the Catalog Matcher) over the list of entries
under the `cards` container: updated entries, the `match_found` boolean,
and the amount added to the run-scoped `reprint_count`. `none` models an
uncaught exception from the per-entry test. -/
def xmlMatch (ti : TokenInfo) (set_code : PyStr) : List Elem → Option (List Elem × Bool × Nat)
  | [] => some ([], false, 0)
  | c :: cs => do
    let m ← cardMatch c ti
    let rest ← xmlMatch ti set_code cs
    return ((if m then insertSetLine c ti set_code else c) :: rest.1,
            m || rest.2.1, (if m then 1 else 0) + rest.2.2)

/-- The global constant `SHORT_TAG_LIST` from the source. -/
def SHORT_TAG_LIST : List PyStr :=
  ["Emblem".toList, "Dungeon".toList, "Card".toList, "Token".toList]

/-- The literal subtype separator appearing in the source's
`card_type.text.split(' â€” ')`: the bytes of an em dash (U+2014) in UTF-8,
mis-decoded as cp1252, i.e. space, U+00E2, U+20AC, U+201D, space — not a
real em dash. -/
def SUBTYPE_SEP : PyStr := " â€” ".toList

/-- A genuine em dash as Scryfall type lines contain it, for stating what
the code does on real upstream data. -/
def EMDASH : Char := '—'

/-- The maintype determination in `createXmlEntry`: first-match substring
tests in source order, with the manual-review fallback text. -/
def maintypeOf (t : PyStr) : PyStr :=
  if pyContains t "Emblem".toList then "Emblem".toList
  else if pyContains t "Dungeon".toList then "Dungeon".toList
  else if pyContains t "Creature".toList then "Creature".toList
  else if pyContains t "Artifact".toList then "Artifact".toList
  else if pyContains t "Enchantment".toList then "Enchantment".toList
  else "Please edit manually".toList

/-- The final text of the `name` element in `createXmlEntry`: the try block
reads `card_type.text.split(' â€” ')[1]`; when that index exists and equals
the token name, `' Token'` is appended, and the IndexError of a separator-
free type line is swallowed by the except clause. -/
def entryNameText (ti : TokenInfo) : PyStr :=
  match (pySplit SUBTYPE_SEP ti.token_type)[1]? with
  | some subtype =>
    if subtype == ti.token_name then ti.token_name ++ " Token".toList
    else ti.token_name
  | none => ti.token_name

/-- Children of the `prop` element built by `createXmlEntry`, in creation
order: optional `colors`, `type`, `maintype`, optional `cmc`, optional
`pt`. -/
def propChildren (ti : TokenInfo) : List Elem :=
  (if ti.token_colors ≠ [] then [.mk "colors".toList [] (some ti.token_colors) []] else [])
  ++ [.mk "type".toList [] (some ti.token_type) [],
      .mk "maintype".toList [] (some (maintypeOf ti.token_type)) []]
  ++ (if ¬ SHORT_TAG_LIST.contains ti.token_type then [.mk "cmc".toList [] (some "0".toList) []] else [])
  ++ (if ti.token_pt ≠ [] then [.mk "pt".toList [] (some ti.token_pt) []] else [])

/-- Embedding of `createXmlEntry` (the Entry Synthesizer): the element it
returns, children in creation order — `name`, optional `text`, `prop`,
`set`, optional `related`, `reverse-related`, `token`, `tablerow`. -/
def createXmlEntry (ti : TokenInfo) (set_code : PyStr) : Elem :=
  .mk "card".toList [] none
    ([Elem.mk "name".toList [] (some (entryNameText ti)) []]
     ++ (if ti.token_text ≠ [] then [.mk "text".toList [] (some ti.token_text) []] else [])
     ++ [.mk "prop".toList [] none (propChildren ti),
         .mk "set".toList [("picURL".toList, ti.token_image)] (some (pyUpper set_code)) []]
     ++ (if pyContains ti.token_text "transform".toList
            || pyContains ti.token_text "Transform".toList
         then [.mk "related".toList [] (some []) []] else [])
     ++ [.mk "reverse-related".toList [] (some []) [],
         .mk "token".toList [] (some "1".toList) [],
         .mk "tablerow".toList []
           (some (if maintypeOf ti.token_type == "Creature".toList
                  then "2".toList else "1".toList)) []])

/-- One upstream record as iterated by `updateTokenXML`: its `layout` tag,
its `card_faces` (read only when the layout is `double_faced_token`), and
its own entry-level fields (read otherwise). -/
structure SfToken : Type where
  layout : PyStr
  card_faces : List SfEntry
  top : SfEntry
deriving DecidableEq

/-- The run state of `updateTokenXML`: the live catalog entries (under the
existing file's `cards` container), the new-entries list, and the three
counters. -/
structure SyncState : Type where
  catalog : List Elem
  newCards : List Elem
  new_token_count : Nat
  reprint_count : Nat
  double_faced_count : Nat

/-- One match-or-synthesize step of the orchestrator loop for a normalized
record: run the Matcher on the live catalog, and on no match append a
synthesized entry and bump the new-token counter. -/
def processInfo (set_code : PyStr) (st : SyncState) (ti : TokenInfo) : Option SyncState := do
  let res ← xmlMatch ti set_code st.catalog
  if res.2.1 then
    return { st with catalog := res.1, reprint_count := st.reprint_count + res.2.2 }
  else
    return { st with
      catalog := res.1
      newCards := st.newCards ++ [createXmlEntry ti set_code]
      new_token_count := st.new_token_count + 1
      reprint_count := st.reprint_count + res.2.2 }

/-- Normalize one raw entry and process it; a KeyError from
`fetchTokenInfo` propagates (no try/except in the loop). -/
def processEntry (set_code : PyStr) (st : SyncState) (e : SfEntry) : Option SyncState := do
  processInfo set_code st (← fetchTokenInfo e)

/-- The inner loop over the faces of a double-faced record. -/
def processFaces (set_code : PyStr) : SyncState → List SfEntry → Option SyncState
  | st, [] => some st
  | st, e :: es => do processFaces set_code (← processEntry set_code st e) es

/-- One iteration of the orchestrator's main loop: double-faced records are
dispatched per face (bumping the double-faced counter), all others are
processed as a single record. -/
def processToken (set_code : PyStr) (st : SyncState) (tok : SfToken) : Option SyncState :=
  if tok.layout == "double_faced_token".toList then
    processFaces set_code
      { st with double_faced_count := st.double_faced_count + 1 } tok.card_faces
  else
    processEntry set_code st tok.top

/-- Spec-side statement of the Catalog Matcher's match condition, from the
claim's words: name prefix, text equality (missing read as empty), exact
type, sorted colours (missing read as empty), power/toughness (missing
read as empty). -/
def matchSpec (card : Elem) (ti : TokenInfo) : Prop :=
  (∃ nm, findtext card "name".toList = some nm ∧ ti.token_name <+: nm) ∧
  xmlTextOf card = ti.token_text ∧
  (∃ te, findPath2 card "prop".toList "type".toList = some te ∧
    te.text = some ti.token_type) ∧
  xmlColorsOf card = ti.token_colors ∧
  xmlPtOf card = ti.token_pt

/-- Spec-side classification table: the ordered (substring, label) pairs
of the claim, evaluated top-down with first match winning. -/
def classifyTable : List (PyStr × PyStr) :=
  [("Emblem".toList, "Emblem".toList),
   ("Dungeon".toList, "Dungeon".toList),
   ("Creature".toList, "Creature".toList),
   ("Artifact".toList, "Artifact".toList),
   ("Enchantment".toList, "Enchantment".toList)]

/-- Spec-side classification: first matching row of the table, with the
manual-review fallback. -/
def classifySpec (t : PyStr) : PyStr :=
  match classifyTable.find? (fun p => pyContains t p.1) with
  | some p => p.2
  | none => "Please edit manually".toList

/-- The orchestrator's main loop over the fetched token set. -/
def runSync (set_code : PyStr) : SyncState → List SfToken → Option SyncState
  | st, [] => some st
  | st, tok :: toks => do runSync set_code (← processToken set_code st tok) toks

/-- Embedding of the core of `updateTokenXML` (the Sync Orchestrator):
iterate the fetched records against the parsed catalog with all counters
zeroed; an uncaught exception anywhere yields `none` (the run halts). -/
def updateTokenXML (token_set : List SfToken) (catalog : List Elem) (set_code : PyStr) :
    Option SyncState :=
  runSync set_code
    { catalog := catalog, newCards := [], new_token_count := 0,
      reprint_count := 0, double_faced_count := 0 } token_set

/-! Concrete data used in witnesses and counterexamples. -/

/-- A catalog entry named `Goblin A` (a disambiguating suffix) of type
`Token Creature`, with no text, colors or pt sub-elements. -/
def goblinSuffixEntry : Elem :=
  .mk "card".toList [] none
    [.mk "name".toList [] (some "Goblin A".toList) [],
     .mk "prop".toList [] none [.mk "type".toList [] (some "Token Creature".toList) []]]

/-- A catalog entry named exactly `Goblin`, same attributes otherwise. -/
def goblinEntry : Elem :=
  .mk "card".toList [] none
    [.mk "name".toList [] (some "Goblin".toList) [],
     .mk "prop".toList [] none [.mk "type".toList [] (some "Token Creature".toList) []]]

/-- A normalized record named `Goblin`, empty text/colors/pt. -/
def goblinRecord : TokenInfo :=
  ⟨"Goblin".toList, [], "Token Creature".toList, [], [], "img".toList⟩

/-- A normalized record named `Goblin A`, empty text/colors/pt. -/
def goblinARecord : TokenInfo :=
  ⟨"Goblin A".toList, [], "Token Creature".toList, [], [], "img".toList⟩

/-- A normalized record whose type line carries a genuine em dash (U+2014,
as Scryfall serves it) and whose subtype equals its name. -/
def spiritRecord : TokenInfo :=
  ⟨"Spirit".toList, [], "Token Creature — Spirit".toList, [], [], "img".toList⟩

/-- A raw record missing the large image reference. -/
def noImageEntry : SfEntry :=
  ⟨"A".toList, some [], "Token".toList, [], none, none, none⟩

/-- A raw record missing the rules-text key but carrying an image. -/
def noOracleEntry : SfEntry :=
  ⟨"A".toList, none, "Token".toList, [], none, none, some "img".toList⟩

/-- A single-faced upstream record missing its image. -/
def noImageToken : SfToken := ⟨"token".toList, [], noImageEntry⟩

/-- A well-formed single-faced upstream record (`Goblin`, red 1/1). -/
def goblinToken : SfToken :=
  ⟨"token".toList, [],
   ⟨"Goblin".toList, some [], "Token Creature — Goblin".toList, ['R'],
    some "1".toList, some "1".toList, some "img".toList⟩⟩

/-- A single-faced upstream record that matches `goblinSuffixEntry`. -/
def goblinPlainToken : SfToken :=
  ⟨"token".toList, [],
   ⟨"Goblin".toList, some [], "Token Creature".toList, [], none, none, some "img".toList⟩⟩

/-- A catalog entry with a `prop/type` child but no `name` child. -/
def noNameCard : Elem :=
  .mk "card".toList [] none
    [.mk "prop".toList [] none [.mk "type".toList [] (some "T".toList) []]]

/-- A catalog entry with a `name` child but no `prop` (hence no
`prop/type`) child. -/
def noTypeCard : Elem :=
  .mk "card".toList [] none [.mk "name".toList [] (some "X".toList) []]

/-- A normalized record with empty name and text, so that the name-prefix
and text tests pass against `noTypeCard`. -/
def emptyNameRecord : TokenInfo := ⟨[], [], "T".toList, [], [], "i".toList⟩

/-! General lemmas about the embedding, shared by the claim theorems. -/

/-- The per-entry match test succeeds exactly on the spec-side match
condition. -/
theorem cardMatch_iff (card : Elem) (ti : TokenInfo) :
    cardMatch card ti = some true ↔ matchSpec card ti := by
  unfold cardMatch matchSpec
  cases hname : findtext card "name".toList with
  | none => simp
  | some nm =>
    simp only [Option.bind_some, Option.some_bind]
    by_cases h1 : ti.token_name.isPrefixOf nm = true
    · by_cases h2 : (xmlTextOf card == ti.token_text) = true
      · cases htype : findPath2 card "prop".toList "type".toList with
        | none => simp [h1, h2]
        | some te =>
          by_cases h3 : (te.text == some ti.token_type) = true
          · by_cases h4 : (xmlColorsOf card == ti.token_colors) = true
            · by_cases h5 : (xmlPtOf card == ti.token_pt) = true
              · simp_all [List.isPrefixOf_iff_prefix, beq_iff_eq]
              · simp_all [List.isPrefixOf_iff_prefix, beq_iff_eq]
            · simp_all [List.isPrefixOf_iff_prefix, beq_iff_eq]
          · simp_all [List.isPrefixOf_iff_prefix, beq_iff_eq]
      · simp_all [beq_iff_eq]
    · simp_all [List.isPrefixOf_iff_prefix]

/-- The maintype if-chain agrees with the spec-side ordered table. -/
theorem maintypeOf_eq_classifySpec (t : PyStr) : maintypeOf t = classifySpec t := by
  unfold maintypeOf classifySpec classifyTable
  cases h1 : pyContains t "Emblem".toList <;>
  cases h2 : pyContains t "Dungeon".toList <;>
  cases h3 : pyContains t "Creature".toList <;>
  cases h4 : pyContains t "Artifact".toList <;>
  cases h5 : pyContains t "Enchantment".toList <;>
  simp_all [List.find?]

/-- A synthesized entry has exactly one `prop` child, carrying the
`propChildren` list. -/
theorem childrenWithTag_create_prop (ti : TokenInfo) (sc : PyStr) :
    childrenWithTag (createXmlEntry ti sc) "prop".toList
      = [Elem.mk "prop".toList [] none (propChildren ti)] := by
  unfold createXmlEntry childrenWithTag Elem.children
  split_ifs <;> rfl

/-- The `maintype` element of a synthesized entry carries `maintypeOf` of
the record's type line. -/
theorem findPath2_create_maintype (ti : TokenInfo) (sc : PyStr) :
    findPath2 (createXmlEntry ti sc) "prop".toList "maintype".toList
      = some (.mk "maintype".toList [] (some (maintypeOf ti.token_type)) []) := by
  unfold findPath2
  rw [childrenWithTag_create_prop]
  unfold propChildren childrenWithTag Elem.children
  split_ifs <;> rfl

/-- The `cmc` element of a synthesized entry exists, with text `0`,
exactly when the record's type line is not in `SHORT_TAG_LIST`. -/
theorem findPath2_create_cmc (ti : TokenInfo) (sc : PyStr) :
    findPath2 (createXmlEntry ti sc) "prop".toList "cmc".toList
      = if SHORT_TAG_LIST.contains ti.token_type then none
        else some (.mk "cmc".toList [] (some "0".toList) []) := by
  unfold findPath2
  rw [childrenWithTag_create_prop]
  unfold propChildren childrenWithTag Elem.children
  split_ifs <;> rfl

/-- When the separator never occurs in the input, the split yields the
whole input as its only segment. -/
theorem splitOnFuel_of_not_contains (sep : PyStr) :
    ∀ (fuel : Nat) (l acc : PyStr), pyContains l sep = false →
      splitOnFuel sep fuel l acc = [acc.reverse ++ l] := by
  intro fuel
  induction fuel with
  | zero => intro l acc _; rfl
  | succ f ih =>
    intro l acc h
    cases l with
    | nil => simp [splitOnFuel]
    | cons c rest =>
      unfold pyContains at h
      rw [List.tails_cons, List.any_cons, Bool.or_eq_false_iff] at h
      unfold splitOnFuel
      rw [h.1]
      simp only [Bool.false_eq_true, if_false]
      rw [ih rest (c :: acc) h.2]
      simp

/-- Python `l.split(sep)` is `[l]` when `sep` does not occur in `l`. -/
theorem pySplit_of_not_contains (sep l : PyStr) (h : pyContains l sep = false) :
    pySplit sep l = [l] := by
  unfold pySplit
  rw [splitOnFuel_of_not_contains sep l.length l [] h]
  simp

/-- A record whose type line does not contain the source's literal
separator keeps its name unchanged (the IndexError path). -/
theorem entryNameText_of_no_sep (ti : TokenInfo)
    (h : pyContains ti.token_type SUBTYPE_SEP = false) :
    entryNameText ti = ti.token_name := by
  unfold entryNameText
  rw [pySplit_of_not_contains _ _ h]
  rfl

/-- The `name` element of a synthesized entry carries `entryNameText`. -/
theorem findtext_create_name (ti : TokenInfo) (sc : PyStr) :
    findtext (createXmlEntry ti sc) "name".toList = some (entryNameText ti) := by
  unfold findtext findChild createXmlEntry childrenWithTag Elem.children
  split_ifs <;> rfl

/-- Creature dominates Artifact in the maintype priority order. -/
theorem maintypeOf_ne_artifact (t : PyStr) (hA : pyContains t "Artifact".toList = true)
    (hC : pyContains t "Creature".toList = true) :
    maintypeOf t ≠ "Artifact".toList := by
  unfold maintypeOf
  cases h1 : pyContains t "Emblem".toList <;>
    cases h2 : pyContains t "Dungeon".toList <;> simp_all

/-! Claim theorems. -/

/-- C1: a catalog entry matches a normalized record if and only if the
entry's name starts with the record's name (asymmetric prefix), the texts
are equal (missing text read as empty), the types are exactly equal, the
sorted colours are equal (missing colours read as empty), and the
power/toughness are equal (missing read as empty); in particular entry
`Goblin A` matches record `Goblin` but entry `Goblin` does not match
record `Goblin A`. -/
theorem claim_C1_match_condition :
    (∀ card ti, cardMatch card ti = some true ↔ matchSpec card ti) ∧
    cardMatch goblinSuffixEntry goblinRecord = some true ∧
    cardMatch goblinEntry goblinARecord = some false :=
  ⟨cardMatch_iff, by decide, by decide⟩

/-- C2: the synthesized entry's maintype is the first match of the ordered
substring table Emblem, Dungeon, Creature, Artifact, Enchantment with the
manual-review fallback; a type line containing both Artifact and Creature
never classifies as Artifact, and `Artifact Creature Token` classifies as
Creature. -/
theorem claim_C2_maintype_priority :
    (∀ ti sc, findPath2 (createXmlEntry ti sc) "prop".toList "maintype".toList
        = some (.mk "maintype".toList [] (some (classifySpec ti.token_type)) [])) ∧
    (∀ t, pyContains t "Artifact".toList = true → pyContains t "Creature".toList = true →
      maintypeOf t ≠ "Artifact".toList) ∧
    maintypeOf "Artifact Creature Token".toList = "Creature".toList := by
  refine ⟨fun ti sc => ?_, maintypeOf_ne_artifact, by decide⟩
  rw [findPath2_create_maintype, maintypeOf_eq_classifySpec]

/-- C2 witness: the priority statement applied to the spec's own example
type line. -/
theorem claim_C2_witness :
    maintypeOf "Artifact Creature Token".toList ≠ "Artifact".toList :=
  claim_C2_maintype_priority.2.1 "Artifact Creature Token".toList (by decide) (by decide)

/-- C3 (code bug): the source splits the type line on the five-character
literal ` â€” ` (space, U+00E2, U+20AC, U+201D, space — the UTF-8 bytes of
an em dash mis-decoded as cp1252), not on a real em dash, so a record such
as `Spirit` typed `Token Creature — Spirit` (genuine U+2014, as upstream
serves it) keeps the name `Spirit` instead of becoming `Spirit Token`; on
every type line free of the mojibake sequence the name is left unchanged. -/
theorem claim_C3_subtype_separator_broken :
    SUBTYPE_SEP = [' ', 'â', '€', '”', ' '] ∧
    SUBTYPE_SEP ≠ [' ', '—', ' '] ∧
    pyContains spiritRecord.token_type [' ', '—', ' '] = true ∧
    pyContains spiritRecord.token_type SUBTYPE_SEP = false ∧
    findtext (createXmlEntry spiritRecord "abc".toList) "name".toList
      = some "Spirit".toList ∧
    (∀ ti : TokenInfo, pyContains ti.token_type SUBTYPE_SEP = false →
      entryNameText ti = ti.token_name) :=
  ⟨by decide, by decide, by decide, by decide, rfl, entryNameText_of_no_sep⟩

/-- C3 witness: the no-separator statement applied to the `Spirit`
record. -/
theorem claim_C3_witness : entryNameText spiritRecord = spiritRecord.token_name :=
  claim_C3_subtype_separator_broken.2.2.2.2.2 spiritRecord (by decide)

/-- C4 (corrected): the normalizer copies the rules-text field verbatim
when it is present, but a record without the field makes normalization
raise KeyError (`none`) instead of defaulting to the empty string. -/
theorem claim_C4_text_requires_oracle :
    (∀ e s ti, e.oracle_text = some s → fetchTokenInfo e = some ti →
      ti.token_text = s) ∧
    (∀ e, e.oracle_text = none → fetchTokenInfo e = none) := by
  constructor
  · intro e s ti hs hti
    unfold fetchTokenInfo at hti
    rw [hs] at hti
    cases him : e.image_uris_large with
    | none => rw [him] at hti; exact absurd hti (by simp)
    | some img =>
      rw [him] at hti
      simp at hti
      rw [← hti]
  · intro e he
    unfold fetchTokenInfo
    rw [he]
    rfl

/-- C4 witness: a concrete record with rules text `T` normalizes to token
text `T`. -/
theorem claim_C4_witness :
    (⟨"A".toList, "T".toList, "Ty".toList, [], [], "i".toList⟩ : TokenInfo).token_text
      = "T".toList :=
  claim_C4_text_requires_oracle.1
    ⟨"A".toList, some "T".toList, "Ty".toList, [], none, none, some "i".toList⟩
    "T".toList _ rfl rfl

/-- C4 counterexample: a record carrying an image but no rules-text field
fails to normalize, refuting that normalization succeeds without the
field. -/
theorem claim_C4_counterexample : fetchTokenInfo noOracleEntry = none := rfl

/-- C6: the synthesized entry carries a `cmc` element with text `0` iff
the record's type line is not exactly one of the four short-form tags; in
particular type `Token` yields no cmc element and type `Artifact Creature`
yields cmc `0`. -/
theorem claim_C6_cmc_marker :
    (∀ ti sc, findPath2 (createXmlEntry ti sc) "prop".toList "cmc".toList
        = if SHORT_TAG_LIST.contains ti.token_type then none
          else some (.mk "cmc".toList [] (some "0".toList) [])) ∧
    (∀ t : PyStr, SHORT_TAG_LIST.contains t = true ↔
      (t = "Emblem".toList ∨ t = "Dungeon".toList ∨ t = "Card".toList ∨
       t = "Token".toList)) ∧
    findPath2 (createXmlEntry ⟨"X".toList, [], "Token".toList, [], [], "i".toList⟩
        "ab".toList) "prop".toList "cmc".toList = none ∧
    findPath2 (createXmlEntry ⟨"X".toList, [], "Artifact Creature".toList, [], [],
        "i".toList⟩ "ab".toList) "prop".toList "cmc".toList
      = some (.mk "cmc".toList [] (some "0".toList) []) :=
  ⟨findPath2_create_cmc, fun t => by simp [SHORT_TAG_LIST], rfl, rfl⟩

/-- Characterization of one Matcher pass: updated entries are the
conditional per-entry updates, the boolean is an existence test, and the
counter delta counts the matching entries. -/
theorem xmlMatch_eq (ti : TokenInfo) (sc : PyStr) :
    ∀ (cards : List Elem) (out : List Elem × Bool × Nat),
      xmlMatch ti sc cards = some out →
      out.1 = cards.map (fun c =>
        if cardMatch c ti == some true then insertSetLine c ti sc else c) ∧
      out.2.1 = cards.any (fun c => cardMatch c ti == some true) ∧
      out.2.2 = cards.countP (fun c => cardMatch c ti == some true) := by
  intro cards
  induction cards with
  | nil => intro out h; unfold xmlMatch at h; simp at h; simp [← h]
  | cons c cs ih =>
    intro out h
    unfold xmlMatch at h
    cases hm : cardMatch c ti with
    | none => rw [hm] at h; exact absurd h (by simp)
    | some m =>
      rw [hm] at h
      cases hrest : xmlMatch ti sc cs with
      | none => rw [hrest] at h; exact absurd h (by simp)
      | some rest =>
        rw [hrest] at h
        simp at h
        subst h
        obtain ⟨h1, h2, h3⟩ := ih rest hrest
        cases m <;> simp_all [Nat.add_comm]

/-- The inserted element is a member of the result of `insertAt`. -/
theorem mem_insertAt {α : Type} (a : α) : ∀ (n : Nat) (l : List α), a ∈ insertAt n a l
  | 0, l => by unfold insertAt; exact List.mem_cons_self a l
  | n + 1, [] => by unfold insertAt; exact List.mem_singleton.mpr rfl
  | n + 1, x :: l => by
    unfold insertAt
    exact List.mem_cons_of_mem x (mem_insertAt a n l)

/-- For an index within bounds, `insertAt` splits the list at that
index. -/
theorem insertAt_eq_take_drop {α : Type} (a : α) :
    ∀ (n : Nat) (l : List α), n ≤ l.length →
      insertAt n a l = l.take n ++ a :: l.drop n
  | 0, l, _ => rfl
  | n + 1, [], h => by simp at h
  | n + 1, x :: l, h => by
    unfold insertAt
    rw [insertAt_eq_take_drop a n l (by simpa using h)]
    simp

/-- A found child is a child with the requested tag. -/
theorem findChild_some_mem {e : Elem} {t : PyStr} {c : Elem}
    (h : findChild e t = some c) : c ∈ e.children ∧ c.tag = t := by
  unfold findChild at h
  have hmem : c ∈ childrenWithTag e t := List.mem_of_mem_head? h
  unfold childrenWithTag at hmem
  have := List.mem_filter.mp hmem
  exact ⟨this.1, by simpa using this.2⟩

/-- A found grandchild guarantees a child with the first tag. -/
theorem findPath2_some_mem {e : Elem} {t1 t2 : PyStr} {x : Elem}
    (h : findPath2 e t1 t2 = some x) : ∃ p ∈ e.children, p.tag = t1 := by
  unfold findPath2 at h
  cases hf : ((childrenWithTag e t1).map (fun c => childrenWithTag c t2)).flatten with
  | nil => rw [hf] at h; exact absurd h (by simp)
  | cons y ys =>
    have hy : y ∈ ((childrenWithTag e t1).map (fun c => childrenWithTag c t2)).flatten := by
      rw [hf]; exact List.mem_cons_self y ys
    rw [List.mem_flatten] at hy
    obtain ⟨l, hl, _⟩ := hy
    rw [List.mem_map] at hl
    obtain ⟨p, hp, _⟩ := hl
    unfold childrenWithTag at hp
    have := List.mem_filter.mp hp
    exact ⟨p, this.1, by simpa using this.2⟩

/-- A list containing three pairwise distinct elements has length at
least three. -/
theorem three_mem_length {α : Type} {a b c : α} {l : List α}
    (ha : a ∈ l) (hb : b ∈ l) (hc : c ∈ l)
    (hab : a ≠ b) (hac : a ≠ c) (hbc : b ≠ c) : 3 ≤ l.length := by
  have hnd : ([a, b, c] : List α).Nodup := by simp [hab, hac, hbc]
  have hsub : ([a, b, c] : List α) ⊆ l := by
    intro x hx
    simp at hx
    rcases hx with rfl | rfl | rfl <;> assumption
  simpa using (hnd.subperm hsub).length_le

/-- A list containing two distinct elements has length at least two. -/
theorem two_mem_length {α : Type} {a b : α} {l : List α}
    (ha : a ∈ l) (hb : b ∈ l) (hab : a ≠ b) : 2 ≤ l.length := by
  have hnd : ([a, b] : List α).Nodup := by simp [hab]
  have hsub : ([a, b] : List α) ⊆ l := by
    intro x hx
    simp at hx
    rcases hx with rfl | rfl <;> assumption
  simpa using (hnd.subperm hsub).length_le


/-- C5: in one Matcher pass every entry satisfying the match condition —
not just the first — receives the new provenance set line (uppercased set
code text, record image as picURL), the reprint counter grows by exactly
the number of matching entries, and the returned boolean is true iff at
least one entry matched. -/
theorem claim_C5_all_matches_updated :
    ∀ (ti : TokenInfo) (sc : PyStr) (cards : List Elem) (out : List Elem × Bool × Nat),
      xmlMatch ti sc cards = some out →
      (out.2.1 = true ↔ ∃ c ∈ cards, cardMatch c ti = some true) ∧
      out.2.2 = cards.countP (fun c => cardMatch c ti == some true) ∧
      out.1 = cards.map (fun c =>
        if cardMatch c ti == some true then insertSetLine c ti sc else c) ∧
      (∀ c, setLine ti sc ∈ (insertSetLine c ti sc).children) ∧
      (setLine ti sc).text = some (pyUpper sc) ∧
      (setLine ti sc).attrs = [("picURL".toList, ti.token_image)] := by
  intro ti sc cards out h
  obtain ⟨h1, h2, h3⟩ := xmlMatch_eq ti sc cards out h
  refine ⟨?_, h3, h1, fun c => mem_insertAt _ _ _, rfl, rfl⟩
  rw [h2, List.any_eq_true]
  constructor
  · rintro ⟨c, hc, hm⟩; exact ⟨c, hc, by simpa using hm⟩
  · rintro ⟨c, hc, hm⟩; exact ⟨c, hc, by simp [hm]⟩

/-- C5 witness: a catalog with two matching entries yields counter 2 and
a true match flag. -/
theorem claim_C5_witness :
    ∃ out, xmlMatch goblinRecord "ab".toList [goblinSuffixEntry, goblinSuffixEntry]
        = some out ∧ out.2.2 = 2 ∧ out.2.1 = true := by
  refine ⟨_, rfl, ?_, ?_⟩
  · rw [(claim_C5_all_matches_updated goblinRecord "ab".toList
      [goblinSuffixEntry, goblinSuffixEntry] _ rfl).2.1]
    decide
  · rw [(claim_C5_all_matches_updated goblinRecord "ab".toList
      [goblinSuffixEntry, goblinSuffixEntry] _ rfl).1]
    exact ⟨goblinSuffixEntry, by simp, by decide⟩

/-- Elements with different tags are different. -/
theorem ne_of_tag_ne {a b : Elem} {t1 t2 : PyStr} (h1 : a.tag = t1) (h2 : b.tag = t2)
    (h : t1 ≠ t2) : a ≠ b := by
  intro he
  subst he
  exact h (h1.symm.trans h2)

/-- Reading a mapped list at an index. -/
theorem get_map_of_eq {α β : Type} {l : List α} {l2 : List β} {f : α → β}
    (h : l2 = l.map f) (i : Nat) (hi : i < l.length) (hi2 : i < l2.length) :
    l2.get ⟨i, hi2⟩ = f (l.get ⟨i, hi⟩) := by
  subst h
  simp

/-- C7: updating a matched entry only inserts the new set line at child
index 3 when a text child exists and index 2 otherwise, leaving tag,
attributes, text and all other children unchanged; entries that do not
match are left untouched by the Matcher pass. -/
theorem claim_C7_insertion_is_only_change :
    (∀ (c : Elem) (ti : TokenInfo) (sc : PyStr), cardMatch c ti = some true →
      (insertSetLine c ti sc).tag = c.tag ∧
      (insertSetLine c ti sc).attrs = c.attrs ∧
      (insertSetLine c ti sc).text = c.text ∧
      ((findChild c "text".toList).isSome = true →
        3 ≤ c.children.length ∧
        (insertSetLine c ti sc).children
          = c.children.take 3 ++ setLine ti sc :: c.children.drop 3) ∧
      ((findChild c "text".toList).isSome = false →
        2 ≤ c.children.length ∧
        (insertSetLine c ti sc).children
          = c.children.take 2 ++ setLine ti sc :: c.children.drop 2)) ∧
    (∀ (ti : TokenInfo) (sc : PyStr) (cards : List Elem) (out : List Elem × Bool × Nat),
      xmlMatch ti sc cards = some out →
      out.1.length = cards.length ∧
      ∀ (i : Nat) (h1 : i < cards.length) (h2 : i < out.1.length),
        cardMatch (cards.get ⟨i, h1⟩) ti ≠ some true →
        out.1.get ⟨i, h2⟩ = cards.get ⟨i, h1⟩) := by
  constructor
  · intro c ti sc hm
    have hspec := (cardMatch_iff c ti).mp hm
    obtain ⟨⟨nm, hnm, _⟩, _, ⟨te, hte, _⟩, _, _⟩ := hspec
    have hname : ∃ nc ∈ c.children, nc.tag = "name".toList := by
      unfold findtext at hnm
      cases hfc : findChild c "name".toList with
      | none => rw [hfc] at hnm; exact absurd hnm (by simp)
      | some nc => exact ⟨nc, (findChild_some_mem hfc).1, (findChild_some_mem hfc).2⟩
    have hprop : ∃ p ∈ c.children, p.tag = "prop".toList := findPath2_some_mem hte
    obtain ⟨nc, hncm, hnct⟩ := hname
    obtain ⟨p, hpm, hpt⟩ := hprop
    refine ⟨rfl, rfl, rfl, ?_, ?_⟩
    · intro htext
      cases hfc : findChild c "text".toList with
      | none => rw [hfc] at htext; simp at htext
      | some tc =>
        have ⟨htcm, htct⟩ := findChild_some_mem hfc
        have hlen : 3 ≤ c.children.length :=
          three_mem_length hncm htcm hpm (ne_of_tag_ne hnct htct (by decide))
            (ne_of_tag_ne hnct hpt (by decide)) (ne_of_tag_ne htct hpt (by decide))
        refine ⟨hlen, ?_⟩
        unfold insertSetLine Elem.children
        rw [hfc]
        simp only [Option.isSome_some, if_true]
        exact insertAt_eq_take_drop _ 3 _ hlen
    · intro htext
      have hfc : findChild c "text".toList = none := by
        cases hfc2 : findChild c "text".toList with
        | none => rfl
        | some tc => rw [hfc2] at htext; simp at htext
      have hlen : 2 ≤ c.children.length :=
        two_mem_length hncm hpm (ne_of_tag_ne hnct hpt (by decide))
      refine ⟨hlen, ?_⟩
      unfold insertSetLine Elem.children
      rw [hfc]
      simp only [Option.isSome_none, Bool.false_eq_true, if_false]
      exact insertAt_eq_take_drop _ 2 _ hlen
  · intro ti sc cards out h
    obtain ⟨h1, _, _⟩ := xmlMatch_eq ti sc cards out h
    constructor
    · rw [h1, List.length_map]
    · intro i hi1 hi2 hne
      rw [get_map_of_eq h1 i hi1 hi2]
      rw [if_neg]
      simp only [beq_iff_eq]
      exact hne


/-- C7 witness: inserting into the (text-free, matching) `Goblin A` entry
splits its children at index 2, and a non-matching catalog entry is
untouched. -/
theorem claim_C7_witness :
    (2 ≤ goblinSuffixEntry.children.length ∧
      (insertSetLine goblinSuffixEntry goblinRecord "ab".toList).children
        = goblinSuffixEntry.children.take 2 ++ setLine goblinRecord "ab".toList
            :: goblinSuffixEntry.children.drop 2) ∧
    ([goblinEntry].get ⟨0, by decide⟩ : Elem)
      = [goblinEntry].get ⟨0, by decide⟩ :=
  ⟨(claim_C7_insertion_is_only_change.1 goblinSuffixEntry goblinRecord
      "ab".toList rfl).2.2.2.2 rfl,
   (claim_C7_insertion_is_only_change.2 goblinARecord "ab".toList [goblinEntry]
      ([goblinEntry], false, 0) rfl).2 0 (by decide) (by decide) (by decide)⟩

/-- A run whose token list contains a single-faced record lacking the
image reference returns no result at all: the KeyError propagates out of
the loop. -/
theorem runSync_none_of_bad_token (sc : PyStr) :
    ∀ (tokens : List SfToken) (st : SyncState) (tok : SfToken), tok ∈ tokens →
      (tok.layout == "double_faced_token".toList) = false →
      tok.top.image_uris_large = none →
      runSync sc st tokens = none := by
  intro tokens
  induction tokens with
  | nil => intro st tok h; exact absurd h (List.not_mem_nil tok)
  | cons t ts ih =>
    intro st tok hmem hlay himg
    unfold runSync
    rcases List.mem_cons.mp hmem with rfl | hmem2
    · have hbad : processToken sc st tok = none := by
        unfold processToken
        rw [hlay]
        simp only [Bool.false_eq_true, if_false]
        unfold processEntry fetchTokenInfo
        cases hot : tok.top.oracle_text with
        | none => rfl
        | some s => rw [himg]; rfl
      rw [hbad]
      rfl
    · cases hpt : processToken sc st t with
      | none => rfl
      | some st2 => exact ih st2 tok hmem2 hlay himg

/-- C8 (corrected): a record lacking the large image reference makes its
normalization fail (KeyError, `none`), and because the orchestrator loop
has no per-record exception handling the whole run halts with no result —
it does not continue with the remaining records. -/
theorem claim_C8_missing_image_halts_run :
    (∀ e : SfEntry, e.image_uris_large = none → fetchTokenInfo e = none) ∧
    (∀ (tokens : List SfToken) (catalog : List Elem) (sc : PyStr) (tok : SfToken),
      tok ∈ tokens → (tok.layout == "double_faced_token".toList) = false →
      tok.top.image_uris_large = none →
      updateTokenXML tokens catalog sc = none) := by
  constructor
  · intro e he
    unfold fetchTokenInfo
    cases hot : e.oracle_text with
    | none => rfl
    | some s => rw [he]; rfl
  · intro tokens catalog sc tok hmem hlay himg
    exact runSync_none_of_bad_token sc tokens _ tok hmem hlay himg

/-- C8 witness: a one-record run whose record lacks the image yields no
result. -/
theorem claim_C8_witness : updateTokenXML [noImageToken] [] "abc".toList = none :=
  claim_C8_missing_image_halts_run.2 [noImageToken] [] "abc".toList noImageToken
    (by decide) (by decide) rfl

/-- C8 counterexample to the continuation claim: with a bad first record
the two-record run returns nothing, although the remaining record on its
own runs fine. -/
theorem claim_C8_counterexample :
    updateTokenXML [noImageToken, goblinToken] [] "abc".toList = none ∧
    (updateTokenXML [goblinToken] [] "abc".toList).isSome = true :=
  ⟨rfl, rfl⟩

/-- On an entry that has both a name child and a prop/type element the
per-entry match test always returns a boolean. -/
theorem cardMatch_isSome_of_wf (c : Elem) (ti : TokenInfo)
    (hn : (findtext c "name".toList).isSome = true)
    (ht : (findPath2 c "prop".toList "type".toList).isSome = true) :
    (cardMatch c ti).isSome = true := by
  unfold cardMatch
  cases hn2 : findtext c "name".toList with
  | none => rw [hn2] at hn; simp at hn
  | some nm =>
    cases ht2 : findPath2 c "prop".toList "type".toList with
    | none => rw [ht2] at ht; simp at ht
    | some te =>
      simp only [Option.bind_eq_bind, Option.some_bind]
      split_ifs <;> rfl

/-- C10: the Matcher is total on catalogs whose entries all carry a name
child and a prop/type element; an entry without a name child makes every
match attempt raise (AttributeError on None.startswith), and an entry
without a prop/type element makes a fitting record raise at the unguarded
`.text` dereference — unlike the guarded text/colors/pt lookups. -/
theorem claim_C10_matcher_partiality :
    (∀ (cards : List Elem) (ti : TokenInfo) (sc : PyStr),
      (∀ c ∈ cards, (findtext c "name".toList).isSome = true ∧
        (findPath2 c "prop".toList "type".toList).isSome = true) →
      (xmlMatch ti sc cards).isSome = true) ∧
    (∀ (ti : TokenInfo) (sc : PyStr), xmlMatch ti sc [noNameCard] = none) ∧
    (findtext noNameCard "name".toList = none) ∧
    (xmlMatch emptyNameRecord "ab".toList [noTypeCard] = none) ∧
    (findPath2 noTypeCard "prop".toList "type".toList = none) := by
  refine ⟨?_, ?_, rfl, rfl, rfl⟩
  · intro cards ti sc hwf
    induction cards with
    | nil => rfl
    | cons c cs ih =>
      unfold xmlMatch
      cases hm : cardMatch c ti with
      | none =>
        have := cardMatch_isSome_of_wf c ti (hwf c (by simp)).1 (hwf c (by simp)).2
        rw [hm] at this
        simp at this
      | some m =>
        have hrest := ih (fun c2 hc2 => hwf c2 (List.mem_cons_of_mem c hc2))
        cases hr : xmlMatch ti sc cs with
        | none => rw [hr] at hrest; simp at hrest
        | some rest => simp [hr]
  · intro ti sc
    unfold xmlMatch cardMatch
    rfl

/-- C10 witness: totality on a concrete well-formed one-entry catalog. -/
theorem claim_C10_witness :
    (xmlMatch goblinRecord "ab".toList [goblinSuffixEntry]).isSome = true :=
  claim_C10_matcher_partiality.1 [goblinSuffixEntry] goblinRecord "ab".toList
    (by intro c hc; simp at hc; subst hc; exact ⟨rfl, rfl⟩)


/-- Match-equivalence of catalog entries: the per-entry test cannot tell
them apart on any record. -/
def MEquiv (c1 c2 : Elem) : Prop := ∀ ti, cardMatch c1 ti = cardMatch c2 ti

/-- Filtering ignores an inserted element the predicate rejects. -/
theorem filter_insertAt {α : Type} (p : α → Bool) (a : α) (h : p a = false) :
    ∀ (n : Nat) (l : List α), (insertAt n a l).filter p = l.filter p
  | 0, l => by unfold insertAt; rw [List.filter_cons, h]; simp
  | _ + 1, [] => by unfold insertAt; rw [List.filter_cons, h]; simp
  | n + 1, x :: l => by
    unfold insertAt
    simp [List.filter_cons, filter_insertAt p a h n l]

/-- Inserting the set line does not change the children carrying any tag
other than `set`. -/
theorem childrenWithTag_insertSetLine (c : Elem) (ti : TokenInfo) (sc t : PyStr)
    (h : (("set".toList : PyStr) == t) = false) :
    childrenWithTag (insertSetLine c ti sc) t = childrenWithTag c t := by
  unfold insertSetLine childrenWithTag Elem.children
  exact filter_insertAt _ _ (by simpa [setLine, Elem.tag] using h) _ _

/-- Inserting a set line into an entry does not change how any record
matches it: all five lookups go through tags other than `set`. -/
theorem cardMatch_insertSetLine (c : Elem) (ti : TokenInfo) (sc : PyStr) (ti2 : TokenInfo) :
    cardMatch (insertSetLine c ti sc) ti2 = cardMatch c ti2 := by
  have hn : findtext (insertSetLine c ti sc) "name".toList = findtext c "name".toList := by
    unfold findtext findChild
    rw [childrenWithTag_insertSetLine c ti sc _ (by decide)]
  have htx : xmlTextOf (insertSetLine c ti sc) = xmlTextOf c := by
    unfold xmlTextOf findChild
    rw [childrenWithTag_insertSetLine c ti sc _ (by decide)]
  have hty : findPath2 (insertSetLine c ti sc) "prop".toList "type".toList
      = findPath2 c "prop".toList "type".toList := by
    unfold findPath2
    rw [childrenWithTag_insertSetLine c ti sc _ (by decide)]
  have hcol : xmlColorsOf (insertSetLine c ti sc) = xmlColorsOf c := by
    unfold xmlColorsOf findPath2
    rw [childrenWithTag_insertSetLine c ti sc _ (by decide)]
  have hpt : xmlPtOf (insertSetLine c ti sc) = xmlPtOf c := by
    unfold xmlPtOf findPath2
    rw [childrenWithTag_insertSetLine c ti sc _ (by decide)]
  unfold cardMatch
  rw [hn, htx, hty, hcol, hpt]

/-- Pointwise match-equivalence of catalogs. -/
def CatEquiv (l1 l2 : List Elem) : Prop := List.Forall₂ MEquiv l1 l2

/-- Match-equivalence is reflexive. -/
theorem catEquiv_refl : ∀ l : List Elem, CatEquiv l l
  | [] => List.Forall₂.nil
  | _ :: l => List.Forall₂.cons (fun _ => rfl) (catEquiv_refl l)

/-- Match-equivalence is transitive. -/
theorem catEquiv_trans {l1 l2 l3 : List Elem} (h1 : CatEquiv l1 l2) :
    CatEquiv l2 l3 → CatEquiv l1 l3 := by
  induction h1 generalizing l3 with
  | nil => intro h2; exact h2
  | cons hc _ ih =>
    intro h2
    cases h2 with
    | cons hc2 hrest2 =>
      exact List.Forall₂.cons (fun ti => (hc ti).trans (hc2 ti)) (ih hrest2)

/-- A Matcher pass over match-equivalent catalogs yields the same found
flag and reprint delta, and match-equivalent updated catalogs. -/
theorem xmlMatch_equiv (ti : TokenInfo) (sc : PyStr) {l1 l2 : List Elem} (h : CatEquiv l1 l2) :
    (xmlMatch ti sc l1 = none ∧ xmlMatch ti sc l2 = none) ∨
    (∃ o1 o2, xmlMatch ti sc l1 = some o1 ∧ xmlMatch ti sc l2 = some o2 ∧
      CatEquiv o1.1 o2.1 ∧ o1.2.1 = o2.2.1 ∧ o1.2.2 = o2.2.2) := by
  induction h with
  | nil =>
    right
    exact ⟨([], false, 0), ([], false, 0), rfl, rfl, List.Forall₂.nil, rfl, rfl⟩
  | @cons a b l1 l2 hab hrest ih =>
    cases hm : cardMatch b ti with
    | none =>
      left
      constructor
      · unfold xmlMatch; rw [hab ti, hm]; rfl
      · unfold xmlMatch; rw [hm]; rfl
    | some m =>
      rcases ih with ⟨hn1, hn2⟩ | ⟨o1, o2, ho1, ho2, hcat, hb2, hcnt⟩
      · left
        constructor
        · unfold xmlMatch; rw [hab ti, hm, hn1]; rfl
        · unfold xmlMatch; rw [hm, hn2]; rfl
      · right
        refine ⟨((if m then insertSetLine a ti sc else a) :: o1.1, m || o1.2.1,
                 (if m then 1 else 0) + o1.2.2),
                ((if m then insertSetLine b ti sc else b) :: o2.1, m || o2.2.1,
                 (if m then 1 else 0) + o2.2.2), ?_, ?_, ?_, ?_, ?_⟩
        · unfold xmlMatch; rw [hab ti, hm, ho1]; rfl
        · unfold xmlMatch; rw [hm, ho2]; rfl
        · refine List.Forall₂.cons ?_ hcat
          intro t2
          cases m with
          | false => simpa using hab t2
          | true =>
            simp only [if_true]
            rw [cardMatch_insertSetLine, cardMatch_insertSetLine]
            exact hab t2
        · simp [hb2]
        · simp [hcnt]

/-- A Matcher pass leaves the catalog match-equivalent to its input: it
only ever inserts `set` lines. -/
theorem xmlMatch_preserves (ti : TokenInfo) (sc : PyStr) :
    ∀ (l : List Elem) (o : List Elem × Bool × Nat),
      xmlMatch ti sc l = some o → CatEquiv l o.1 := by
  intro l
  induction l with
  | nil =>
    intro o h
    unfold xmlMatch at h
    simp at h
    rw [← h]
    exact List.Forall₂.nil
  | cons c cs ih =>
    intro o h
    unfold xmlMatch at h
    cases hm : cardMatch c ti with
    | none => rw [hm] at h; exact absurd h (by simp)
    | some m =>
      rw [hm] at h
      cases hr : xmlMatch ti sc cs with
      | none => rw [hr] at h; exact absurd h (by simp)
      | some rest =>
        rw [hr] at h
        simp at h
        subst h
        refine List.Forall₂.cons ?_ (ih rest hr)
        intro t2
        cases m with
        | false => simp
        | true => simp [cardMatch_insertSetLine]


/-- Relation between the outcomes of two orchestrator runs started from
states `s1` and `s2`: both raise, or both succeed with match-equivalent
catalogs and equal counter increments (stated as cross sums). -/
def SyncOutRel (s1 s2 : SyncState) (o1 o2 : Option SyncState) : Prop :=
  (o1 = none ∧ o2 = none) ∨
  (∃ r1 r2, o1 = some r1 ∧ o2 = some r2 ∧ CatEquiv r1.catalog r2.catalog ∧
    r1.new_token_count + s2.new_token_count = r2.new_token_count + s1.new_token_count ∧
    r1.reprint_count + s2.reprint_count = r2.reprint_count + s1.reprint_count ∧
    r1.double_faced_count + s2.double_faced_count
      = r2.double_faced_count + s1.double_faced_count)

/-- Outcome relations compose along sequential steps. -/
theorem syncOutRel_comp {s1 s2 r1 r2 : SyncState} {o1 o2 : Option SyncState}
    (h1 : SyncOutRel s1 s2 (some r1) (some r2)) (h2 : SyncOutRel r1 r2 o1 o2) :
    SyncOutRel s1 s2 o1 o2 := by
  rcases h1 with ⟨hbad, _⟩ | ⟨a1, a2, ha1, ha2, hc1, hn1, hr1, hd1⟩
  · exact absurd hbad (by simp)
  · obtain rfl : a1 = r1 := (Option.some.inj ha1).symm
    obtain rfl : a2 = r2 := (Option.some.inj ha2).symm
    rcases h2 with ⟨hb1, hb2⟩ | ⟨b1, b2, hb1, hb2, hc2, hn2, hr2, hd2⟩
    · left; exact ⟨hb1, hb2⟩
    · right
      exact ⟨b1, b2, hb1, hb2, hc2, by omega, by omega, by omega⟩

/-- One match-or-synthesize step preserves the outcome relation. -/
theorem processInfo_rel (sc : PyStr) (ti : TokenInfo) (s1 s2 : SyncState)
    (h : CatEquiv s1.catalog s2.catalog) :
    SyncOutRel s1 s2 (processInfo sc s1 ti) (processInfo sc s2 ti) := by
  unfold processInfo
  rcases xmlMatch_equiv ti sc h with ⟨hn1, hn2⟩ | ⟨o1, o2, ho1, ho2, hcat, hb, hcnt⟩
  · rw [hn1, hn2]; left; exact ⟨rfl, rfl⟩
  · rw [ho1, ho2]
    right
    cases hf : o1.2.1 with
    | true =>
      refine ⟨{ s1 with catalog := o1.1, reprint_count := s1.reprint_count + o1.2.2 },
              { s2 with catalog := o2.1, reprint_count := s2.reprint_count + o2.2.2 },
              ?_, ?_, hcat, by simp; omega, by simp [hcnt]; omega, by simp; omega⟩
      · simp only [Option.bind_eq_bind, Option.some_bind]
        rw [hf]
        rfl
      · simp only [Option.bind_eq_bind, Option.some_bind]
        rw [← hb, hf]
        rfl
    | false =>
      refine ⟨{ s1 with
                  catalog := o1.1
                  newCards := s1.newCards ++ [createXmlEntry ti sc]
                  new_token_count := s1.new_token_count + 1
                  reprint_count := s1.reprint_count + o1.2.2 },
              { s2 with
                  catalog := o2.1
                  newCards := s2.newCards ++ [createXmlEntry ti sc]
                  new_token_count := s2.new_token_count + 1
                  reprint_count := s2.reprint_count + o2.2.2 },
              ?_, ?_, hcat, by simp; omega, by simp [hcnt]; omega, by simp; omega⟩
      · simp only [Option.bind_eq_bind, Option.some_bind]
        rw [hf]
        rfl
      · simp only [Option.bind_eq_bind, Option.some_bind]
        rw [← hb, hf]
        rfl

/-- Processing one raw entry preserves the outcome relation. -/
theorem processEntry_rel (sc : PyStr) (e : SfEntry) (s1 s2 : SyncState)
    (h : CatEquiv s1.catalog s2.catalog) :
    SyncOutRel s1 s2 (processEntry sc s1 e) (processEntry sc s2 e) := by
  unfold processEntry
  cases hf : fetchTokenInfo e with
  | none => exact Or.inl ⟨rfl, rfl⟩
  | some ti => exact processInfo_rel sc ti s1 s2 h

/-- The double-faced inner loop preserves the outcome relation. -/
theorem processFaces_rel (sc : PyStr) :
    ∀ (faces : List SfEntry) (s1 s2 : SyncState), CatEquiv s1.catalog s2.catalog →
      SyncOutRel s1 s2 (processFaces sc s1 faces) (processFaces sc s2 faces) := by
  intro faces
  induction faces with
  | nil =>
    intro s1 s2 h
    right
    exact ⟨s1, s2, rfl, rfl, h, by omega, by omega, by omega⟩
  | cons e es ih =>
    intro s1 s2 h
    unfold processFaces
    rcases processEntry_rel sc e s1 s2 h with ⟨hn1, hn2⟩ | ⟨r1, r2, hr1, hr2, hc, hn, hr, hd⟩
    · rw [hn1, hn2]; left; exact ⟨rfl, rfl⟩
    · rw [hr1, hr2]
      exact syncOutRel_comp (Or.inr ⟨r1, r2, rfl, rfl, hc, hn, hr, hd⟩) (ih r1 r2 hc)

/-- One main-loop iteration preserves the outcome relation. -/
theorem processToken_rel (sc : PyStr) (tok : SfToken) (s1 s2 : SyncState)
    (h : CatEquiv s1.catalog s2.catalog) :
    SyncOutRel s1 s2 (processToken sc s1 tok) (processToken sc s2 tok) := by
  unfold processToken
  cases hl : tok.layout == "double_faced_token".toList with
  | false =>
    simp only [Bool.false_eq_true, if_false]
    exact processEntry_rel sc tok.top s1 s2 h
  | true =>
    simp only [if_true]
    have hx := processFaces_rel sc tok.card_faces
      { s1 with double_faced_count := s1.double_faced_count + 1 }
      { s2 with double_faced_count := s2.double_faced_count + 1 } h
    rcases hx with ⟨h1, h2⟩ | ⟨r1, r2, hr1, hr2, hc, hn, hr, hd⟩
    · left; exact ⟨h1, h2⟩
    · right
      refine ⟨r1, r2, hr1, hr2, hc, ?_, ?_, ?_⟩ <;> simp at hn hr hd ⊢ <;> omega

/-- Whole runs from match-equivalent catalogs raise together or succeed
with equal counter increments. -/
theorem runSync_rel (sc : PyStr) :
    ∀ (tokens : List SfToken) (s1 s2 : SyncState), CatEquiv s1.catalog s2.catalog →
      SyncOutRel s1 s2 (runSync sc s1 tokens) (runSync sc s2 tokens) := by
  intro tokens
  induction tokens with
  | nil =>
    intro s1 s2 h
    right
    exact ⟨s1, s2, rfl, rfl, h, by omega, by omega, by omega⟩
  | cons t ts ih =>
    intro s1 s2 h
    unfold runSync
    rcases processToken_rel sc t s1 s2 h with ⟨hn1, hn2⟩ | ⟨r1, r2, hr1, hr2, hc, hn, hr, hd⟩
    · rw [hn1, hn2]; left; exact ⟨rfl, rfl⟩
    · rw [hr1, hr2]
      exact syncOutRel_comp (Or.inr ⟨r1, r2, rfl, rfl, hc, hn, hr, hd⟩) (ih r1 r2 hc)


/-- One match-or-synthesize step keeps the catalog match-equivalent to
what it was. -/
theorem processInfo_preserves (sc : PyStr) (ti : TokenInfo) (st r : SyncState)
    (h : processInfo sc st ti = some r) : CatEquiv st.catalog r.catalog := by
  unfold processInfo at h
  cases hm : xmlMatch ti sc st.catalog with
  | none => rw [hm] at h; exact absurd h (by simp)
  | some o =>
    rw [hm] at h
    have hp := xmlMatch_preserves ti sc st.catalog o hm
    simp at h
    by_cases hf : o.2.1 = true
    · rw [if_pos hf] at h
      obtain rfl := Option.some.inj h
      exact hp
    · rw [if_neg hf] at h
      obtain rfl := Option.some.inj h
      exact hp

/-- Processing one raw entry keeps the catalog match-equivalent. -/
theorem processEntry_preserves (sc : PyStr) (e : SfEntry) (st r : SyncState)
    (h : processEntry sc st e = some r) : CatEquiv st.catalog r.catalog := by
  unfold processEntry at h
  cases hf : fetchTokenInfo e with
  | none => rw [hf] at h; exact absurd h (by simp)
  | some ti =>
    rw [hf] at h
    exact processInfo_preserves sc ti st r h

/-- The double-faced inner loop keeps the catalog match-equivalent. -/
theorem processFaces_preserves (sc : PyStr) :
    ∀ (faces : List SfEntry) (st r : SyncState),
      processFaces sc st faces = some r → CatEquiv st.catalog r.catalog := by
  intro faces
  induction faces with
  | nil =>
    intro st r h
    unfold processFaces at h
    rw [← Option.some.inj h]
    exact catEquiv_refl _
  | cons e es ih =>
    intro st r h
    unfold processFaces at h
    cases he : processEntry sc st e with
    | none => rw [he] at h; exact absurd h (by simp)
    | some mid =>
      rw [he] at h
      exact catEquiv_trans (processEntry_preserves sc e st mid he) (ih mid r h)

/-- One main-loop iteration keeps the catalog match-equivalent. -/
theorem processToken_preserves (sc : PyStr) (tok : SfToken) (st r : SyncState)
    (h : processToken sc st tok = some r) : CatEquiv st.catalog r.catalog := by
  unfold processToken at h
  cases hl : tok.layout == "double_faced_token".toList with
  | false =>
    rw [hl] at h
    simp only [Bool.false_eq_true, if_false] at h
    exact processEntry_preserves sc tok.top st r h
  | true =>
    rw [hl] at h
    simp only [if_true] at h
    have hx := processFaces_preserves sc tok.card_faces
      { st with double_faced_count := st.double_faced_count + 1 } r h
    exact hx

/-- A whole run keeps the catalog match-equivalent to the input
catalog. -/
theorem runSync_preserves (sc : PyStr) :
    ∀ (tokens : List SfToken) (st r : SyncState),
      runSync sc st tokens = some r → CatEquiv st.catalog r.catalog := by
  intro tokens
  induction tokens with
  | nil =>
    intro st r h
    unfold runSync at h
    rw [← Option.some.inj h]
    exact catEquiv_refl _
  | cons t ts ih =>
    intro st r h
    unfold runSync at h
    cases ht : processToken sc st t with
    | none => rw [ht] at h; exact absurd h (by simp)
    | some mid =>
      rw [ht] at h
      exact catEquiv_trans (processToken_preserves sc t st mid ht) (ih mid r h)

/-- C9 (amended): running the sync a second time with the same records and
set code against the catalog amended by the first run yields exactly the
first run's reprint count, new-entry count and double-faced count — not,
in general, a reprint count equal to the set size and a zero new count. -/
theorem claim_C9_second_run_same_counts :
    ∀ (tokens : List SfToken) (catalog : List Elem) (sc : PyStr) (st1 : SyncState),
      updateTokenXML tokens catalog sc = some st1 →
      ∃ st2, updateTokenXML tokens st1.catalog sc = some st2 ∧
        st2.reprint_count = st1.reprint_count ∧
        st2.new_token_count = st1.new_token_count ∧
        st2.double_faced_count = st1.double_faced_count := by
  intro tokens catalog sc st1 h1
  unfold updateTokenXML at h1 ⊢
  have hpres : CatEquiv catalog st1.catalog := runSync_preserves sc tokens _ _ h1
  have hrel := runSync_rel sc tokens
    { catalog := catalog, newCards := [], new_token_count := 0,
      reprint_count := 0, double_faced_count := 0 }
    { catalog := st1.catalog, newCards := [], new_token_count := 0,
      reprint_count := 0, double_faced_count := 0 } hpres
  rcases hrel with ⟨hn1, _⟩ | ⟨r1, r2, hr1, hr2, _, hn, hr, hd⟩
  · rw [h1] at hn1; exact absurd hn1 (by simp)
  · rw [h1] at hr1
    obtain rfl : r1 = st1 := (Option.some.inj hr1).symm
    refine ⟨r2, hr2, ?_, ?_, ?_⟩ <;> simp at hn hr hd <;> omega

/-- The state after a first run of one plain Goblin record against the
one-entry catalog `[goblinSuffixEntry]`: the entry got a set line, one
reprint, no new entries. -/
def firstRunState : SyncState :=
  { catalog := [insertSetLine goblinSuffixEntry goblinRecord "abc".toList]
    newCards := []
    new_token_count := 0
    reprint_count := 1
    double_faced_count := 0 }

/-- C9 witness: the amended statement applied to that concrete first run. -/
theorem claim_C9_witness :
    ∃ st2, updateTokenXML [goblinPlainToken] firstRunState.catalog "abc".toList
        = some st2 ∧
      st2.reprint_count = firstRunState.reprint_count ∧
      st2.new_token_count = firstRunState.new_token_count ∧
      st2.double_faced_count = firstRunState.double_faced_count :=
  claim_C9_second_run_same_counts [goblinPlainToken] [goblinSuffixEntry]
    "abc".toList firstRunState rfl

/-- C9 counterexample: one unmatched record against an empty catalog; the
second run against the (still empty) amended catalog again creates one new
entry and zero reprints, not reprint count = set size 1 and new count 0. -/
theorem claim_C9_counterexample :
    ∃ st1 st2,
      updateTokenXML [goblinToken] [] "abc".toList = some st1 ∧
      updateTokenXML [goblinToken] st1.catalog "abc".toList = some st2 ∧
      ¬ (st2.reprint_count = 1 ∧ st2.new_token_count = 0) := by
  refine ⟨_, _, rfl, rfl, ?_⟩
  decide


end UTX
